import Mathlib

/-!
Verification development for the record-matching core of the
no-techno-tempo application.

The development shallowly embeds, over `List Char` strings and exact
rational arithmetic `ℚ`:

* the text utilities of `rekordbox_module.py` (`normalize_text`,
  `similarity_score` — including a faithful model of Python's
  `difflib.SequenceMatcher.ratio` with `isjunk=None`, and
  `separate_artist_title`);
* the matching engine `find_matches_with_progress` (row/pair sweep,
  title-only / normal / strong-title / crossed strategies, the processed-pair
  counter and the yield stream); wall-clock elapsed time is the one component
  of the source's yield tuples that has no shallow embedding, so yields are
  modelled as (progress, cumulative matches) pairs;
* the duration estimator `get_tiempo_estimado` of `data_storage.py`
  (per-item rates, the numpy linear-interpolation percentile and the
  1.5·IQR outlier fence).

Machine floats of the source are modelled as exact rationals.
-/

/- The Batteries rational-number operations are marked irreducible for
elaboration performance; concrete evaluation of the embedded definitions
(by `decide` / `rfl`) needs them to reduce. -/
attribute [local semireducible] Rat.add Rat.mul Rat.inv Rat.sub Rat.ofScientific

/-! ## Text utilities (`rekordbox_module.py`, lines 104–119)

Strings are `List Char`.  The character classes model Python's `str.strip`
whitespace, the regex classes `\s` and `\w`, and `str.lower`, on their ASCII
fragment (all inputs of interest in this development are ASCII). -/

/-- Python whitespace (`str.strip`, regex `\s`): space, tab, newline,
carriage return, vertical tab, form feed. -/
def pyIsSpace (c : Char) : Bool :=
  c == ' ' || c == '\t' || c == '\n' || c == '\r' ||
  c == Char.ofNat 11 || c == Char.ofNat 12

/-- Python regex word character `\w` (ASCII fragment): alphanumeric or
underscore. -/
def pyIsWord (c : Char) : Bool :=
  c.isAlphanum || c == '_'

/-- Python `str.strip()`: drop leading and trailing whitespace. -/
def pyStrip (s : List Char) : List Char :=
  ((s.dropWhile pyIsSpace).reverse.dropWhile pyIsSpace).reverse

/-- Worker for `collapseWs`; the flag records whether the previous character
belonged to a whitespace run (whose single replacement `' '` was already
emitted). -/
def collapseFrom : Bool → List Char → List Char
  | _, [] => []
  | inRun, c :: rest =>
    if pyIsSpace c then
      if inRun then collapseFrom true rest
      else ' ' :: collapseFrom true rest
    else c :: collapseFrom false rest

/-- Python `re.sub(r'\s+', ' ', s)`: replace every maximal whitespace run by
a single space. -/
def collapseWs (s : List Char) : List Char :=
  collapseFrom false s

/-- `normalize_text` (rekordbox_module.py, lines 104–114): lower-case, strip,
remove the characters matching `[^\w\s]`, collapse whitespace runs.  Empty
(or `None`, not representable here) input yields the empty string. -/
def normalize_text (text : List Char) : List Char :=
  if text.isEmpty then []
  else
    collapseWs
      ((pyStrip (text.map Char.toLower)).filter (fun c => pyIsWord c || pyIsSpace c))

/-! ## `difflib.SequenceMatcher` with `isjunk=None` (CPython `difflib.py`)

`similarity_score` (rekordbox_module.py, lines 117–119) calls
`SequenceMatcher(None, a, b).ratio()`.  With `isjunk=None` the junk set
`bjunk` is empty, so the two junk-extension loops of `find_longest_match`
never fire and are omitted; the `autojunk` purge of popular elements
(active only when `len(b) >= 200`) is modelled in `bAllowed`. -/

/-- Indices of the occurrences of `c` in `b`, ascending — the `b2j` entry
for `c`. -/
def positionsOf (b : List Char) (c : Char) : List Nat :=
  (b.enum.filter (fun p => p.2 == c)).map Prod.fst

/-- The `autojunk` heuristic: when `len(b) >= 200`, elements with more than
`len(b) // 100 + 1` occurrences are purged from `b2j`. -/
def bAllowed (b : List Char) (c : Char) : Bool :=
  !(decide (200 ≤ b.length) && decide (b.length / 100 + 1 < b.count c))

/-- `b2j.get(c, [])` after the autojunk purge. -/
def b2jGet (b : List Char) (c : Char) : List Nat :=
  if bAllowed b c then positionsOf b c else []

/-- `j2len.get(j, 0)` on the association-list representation of the `j2len`
dictionary. -/
def lookupJ (l : List (Nat × Nat)) (j : Nat) : Nat :=
  match l.find? (fun p => p.1 == j) with
  | some p => p.2
  | none => 0

/-- Inner loop of `find_longest_match` for one `i`: walk the (ascending)
occurrence list of `a[i]` restricted to `[blo, bhi)`, build the new `j2len`
row, and update the best block on strict improvement.  `k = j2len.get(j-1, 0)
+ 1`; for `j = 0` Python's `j-1 = -1` always misses the dictionary. -/
def flmRow (prev : List (Nat × Nat)) (i : Nat) (js : List Nat)
    (best : Nat × Nat × Nat) : List (Nat × Nat) × (Nat × Nat × Nat) :=
  js.foldl
    (fun acc j =>
      let k := (if j == 0 then 0 else lookupJ prev (j - 1)) + 1
      let row := (j, k) :: acc.1
      if acc.2.2.2 < k then (row, (i + 1 - k, j + 1 - k, k))
      else (row, acc.2))
    ([], best)

/-- Outer loop of `find_longest_match` over `i ∈ [alo, ahi)`. -/
def flmLoop (a b : List Char) (blo bhi : Nat) :
    List Nat → List (Nat × Nat) → Nat × Nat × Nat → Nat × Nat × Nat
  | [], _, best => best
  | i :: is, prev, best =>
    let js := (b2jGet b (a.getD i (Char.ofNat 0))).filter
        (fun j => decide (blo ≤ j) && decide (j < bhi))
    let (row, best') := flmRow prev i js best
    flmLoop a b blo bhi is row best'

/-- The first extension loop: grow the block leftwards over equal characters
(`bjunk` is empty, so the junk guard is vacuous). -/
def extendLeft (a b : List Char) (alo blo : Nat) :
    Nat → Nat → Nat → Nat → Nat × Nat × Nat
  | 0, besti, bestj, bestsize => (besti, bestj, bestsize)
  | fuel + 1, besti, bestj, bestsize =>
    if decide (alo < besti) && decide (blo < bestj) &&
        (a.getD (besti - 1) (Char.ofNat 0) == b.getD (bestj - 1) (Char.ofNat 0)) then
      extendLeft a b alo blo fuel (besti - 1) (bestj - 1) (bestsize + 1)
    else (besti, bestj, bestsize)

/-- The second extension loop: grow the block rightwards over equal
characters. -/
def extendRight (a b : List Char) (ahi bhi besti bestj : Nat) :
    Nat → Nat → Nat
  | 0, bestsize => bestsize
  | fuel + 1, bestsize =>
    if decide (besti + bestsize < ahi) && decide (bestj + bestsize < bhi) &&
        (a.getD (besti + bestsize) (Char.ofNat 0) ==
          b.getD (bestj + bestsize) (Char.ofNat 0)) then
      extendRight a b ahi bhi besti bestj fuel (bestsize + 1)
    else bestsize

/-- `SequenceMatcher.find_longest_match(alo, ahi, blo, bhi)` for `isjunk=None`:
the dynamic-programming sweep followed by the two (non-junk) extension
loops. -/
def find_longest_match (a b : List Char) (alo ahi blo bhi : Nat) :
    Nat × Nat × Nat :=
  let best := flmLoop a b blo bhi (List.range' alo (ahi - alo)) [] (alo, blo, 0)
  let best' := extendLeft a b alo blo best.1 best.1 best.2.1 best.2.2
  let size := extendRight a b ahi bhi best'.1 best'.2.1 (ahi + bhi) best'.2.2
  (best'.1, best'.2.1, size)

/-- Total size of the matching blocks of `get_matching_blocks` restricted to
the window — the `M` of `ratio = 2·M / T`.  The source drives the recursion
with an explicit queue and then merges adjacent blocks; both preserve the
total size, so the plain recursion suffices.  The window-size fuel dominates
the recursion depth. -/
def smTotal (a b : List Char) : Nat → Nat → Nat → Nat → Nat → Nat
  | 0, _, _, _, _ => 0
  | fuel + 1, alo, ahi, blo, bhi =>
    let m := find_longest_match a b alo ahi blo bhi
    if m.2.2 == 0 then 0
    else
      m.2.2 +
        (if decide (alo < m.1) && decide (blo < m.2.1) then
          smTotal a b fuel alo m.1 blo m.2.1
        else 0) +
        (if decide (m.1 + m.2.2 < ahi) && decide (m.2.1 + m.2.2 < bhi) then
          smTotal a b fuel (m.1 + m.2.2) ahi (m.2.1 + m.2.2) bhi
        else 0)

/-- Total matched size over the full sequences. -/
def smTotalFull (a b : List Char) : Nat :=
  smTotal a b (a.length + b.length + 1) 0 a.length 0 b.length

/-- `SequenceMatcher.ratio()`: `2·M / T`, and `1.0` when both sequences are
empty (`_calculate_ratio`). -/
def smRatio (a b : List Char) : ℚ :=
  if a.length + b.length == 0 then 1
  else 2 * (smTotalFull a b : ℚ) / ((a.length + b.length : Nat) : ℚ)

/-- `similarity_score` (rekordbox_module.py, lines 117–119): the ratio of the
normalized strings. -/
def similarity_score (str1 str2 : List Char) : ℚ :=
  smRatio (normalize_text str1) (normalize_text str2)

-- Concrete sanity evaluations of the SequenceMatcher model.
example : smRatio ['a', 'b', 'c'] ['a', 'b', 'c'] = 1 := by decide
example : smRatio ['a', 'b', 'c', 'd'] ['b', 'c', 'd', 'a'] = 3 / 4 := by decide
example : smRatio [] [] = 1 := by decide
example : similarity_score ['a'] ['a'] = 1 := by decide
example : similarity_score ['a'] ['b'] = 0 := by decide

/-! ## `separate_artist_title` (rekordbox_module.py, lines 60–101)

The function iterates over the rows of the dataframe and rewrites each row
independently; the embedding models the per-row rewrite.  A field is written
back only inside the branches that assign `df.at[idx, ...]`; otherwise the
row keeps its original (unstripped) value. -/

/-- A wishlist (Rekordbox) row. -/
structure RbRow where
  artista : List Char
  titulo : List Char
deriving DecidableEq

/-- The separator patterns, in priority order (all begin with a space). -/
def separators : List (List Char) :=
  [[' ', '-', ' '], [' ', '/', ' '], [' ', '–', ' '], [' ', '—', ' '],
   [' ', '|', ' ']]

/-- Index of the first occurrence of `sep` as a contiguous substring of `s`
(`str.find` / the split point of `str.split(sep, 1)`). -/
def subIndex (sep s : List Char) : Option Nat :=
  (List.range (s.length + 1)).find? (fun i => sep.isPrefixOf (s.drop i))

/-- The per-row body of `separate_artist_title`. -/
def separate_artist_title (r : RbRow) : RbRow :=
  let artista := pyStrip r.artista
  let titulo := pyStrip r.titulo
  if artista.isEmpty && !titulo.isEmpty then
    -- "Artista - Título" repair: split on the first separator (in priority
    -- order) occurring anywhere in the title.
    match separators.find? (fun sep => (subIndex sep titulo).isSome) with
    | some sep =>
      match subIndex sep titulo with
      | some i =>
        { artista := pyStrip (titulo.take i),
          titulo := pyStrip (titulo.drop (i + sep.length)) }
      | none => r
    | none => r
  else if !artista.isEmpty && !titulo.isEmpty then
    -- double-loading repair: when the title starts with the artist, the
    -- source strips the remainder and then tests the separators as prefixes.
    if artista.isPrefixOf titulo then
      let titulo_clean := pyStrip (titulo.drop artista.length)
      match separators.find? (fun sep => sep.isPrefixOf titulo_clean) with
      | some sep => { r with titulo := pyStrip (titulo_clean.drop sep.length) }
      | none => r
    else r
  else r

/-! ## The matching engine (`find_matches_with_progress`,
rekordbox_module.py, lines 122–265)

Rows are typed records (the claims under study presuppose the required
`artista` / `titulo` columns; the source's missing-column early returns
coincide with the empty-input early return).  The similarity percentages the
source formats into strings (`f"{sim*100:.1f}%"`) are modelled by the exact
pre-formatting rational values; the `'N/A'` artist-similarity placeholder of
title-only matches is `none`. -/

/-- A scraped catalog (disco) row.  `precio` and `estilos` are carried
through opaquely. -/
structure DiscoRow where
  artista : List Char
  titulo : List Char
  precio : List Char
  estilos : List Char
deriving DecidableEq

/-- The `tipo_match` tag of an emitted candidate. -/
inductive TipoMatch
  | titulo
  | normal
  | tituloFuerte
  | cruzado
deriving DecidableEq

/-- An emitted match candidate (one `matches.append({...})` record). -/
structure Cand where
  artista_rekordbox : List Char
  titulo_rekordbox : List Char
  artista_disco : List Char
  titulo_disco : List Char
  precio : List Char
  estilos : List Char
  similitud_artista : Option ℚ
  similitud_titulo : ℚ
  similitud_total : ℚ
  tipo_match : TipoMatch
deriving DecidableEq

/-- The `'N/A'` placeholder string. -/
def naLit : List Char := ['N', '/', 'A']

/-- `'unknown'`. -/
def sentinelUnknown : List Char := ['u', 'n', 'k', 'n', 'o', 'w', 'n']

/-- `'desconocido'`. -/
def sentinelDesconocido : List Char :=
  ['d', 'e', 's', 'c', 'o', 'n', 'o', 'c', 'i', 'd', 'o']

/-- Line 166: `not rekordbox_artist or rekordbox_artist.lower() in
['unknown', 'desconocido', '']`. -/
def search_by_title_only (rb_artist : List Char) : Bool :=
  rb_artist.isEmpty ||
    (let low := rb_artist.map Char.toLower
     low == sentinelUnknown || low == sentinelDesconocido || low == [])

/-- Line 172: the disco row is skipped when both stripped fields are
empty. -/
def bothEmptyDisco (d : DiscoRow) : Bool :=
  (pyStrip d.artista).isEmpty && (pyStrip d.titulo).isEmpty

/-- Line 161: the wishlist row is skipped when both stripped fields are
empty. -/
def bothEmptyRb (r : RbRow) : Bool :=
  (pyStrip r.artista).isEmpty && (pyStrip r.titulo).isEmpty

/-- Lines 176–223: the title-only / normal / strong-title candidate of one
evaluated (wishlist, catalog) pair.  `rb_artist` and `rb_title` are the
stripped wishlist fields.  (The source's accumulated list is called
`matches`, a reserved word in Lean, hence `matchesAcc` below.) -/
def basePairCands (artist_threshold title_threshold : ℚ)
    (rb_artist rb_title : List Char) (d : DiscoRow) : List Cand :=
  let disco_artist := pyStrip d.artista
  let disco_title := pyStrip d.titulo
  if search_by_title_only rb_artist then
      let title_sim := similarity_score rb_title disco_title
      if title_sim ≥ title_threshold then
        [{ artista_rekordbox := if rb_artist.isEmpty then naLit else rb_artist,
           titulo_rekordbox := rb_title,
           artista_disco := disco_artist,
           titulo_disco := disco_title,
           precio := d.precio, estilos := d.estilos,
           similitud_artista := none,
           similitud_titulo := title_sim,
           similitud_total := title_sim,
           tipo_match := TipoMatch.titulo }]
      else []
    else
      let artist_sim := similarity_score rb_artist disco_artist
      let title_sim := similarity_score rb_title disco_title
      if artist_sim ≥ artist_threshold ∧ title_sim ≥ title_threshold then
        [{ artista_rekordbox := rb_artist, titulo_rekordbox := rb_title,
           artista_disco := disco_artist, titulo_disco := disco_title,
           precio := d.precio, estilos := d.estilos,
           similitud_artista := some artist_sim,
           similitud_titulo := title_sim,
           similitud_total := (artist_sim + title_sim) / 2,
           tipo_match := TipoMatch.normal }]
      else if title_sim ≥ (9 : ℚ) / 10 ∧ artist_sim ≥ (1 : ℚ) / 2 then
        [{ artista_rekordbox := rb_artist, titulo_rekordbox := rb_title,
           artista_disco := disco_artist, titulo_disco := disco_title,
           precio := d.precio, estilos := d.estilos,
           similitud_artista := some artist_sim,
           similitud_titulo := title_sim,
           similitud_total := (artist_sim + title_sim) / 2,
           tipo_match := TipoMatch.tituloFuerte }]
      else []

/-- Lines 226–253: the crossed-mode candidate, given the candidate list seen
so far (the accumulated `matches` including the base candidates of the
current pair, against which `es_duplicado` checks). -/
def crossedPairCands (artist_threshold title_threshold : ℚ)
    (buscar_cruzado : Bool) (rb_artist rb_title : List Char)
    (seen : List Cand) (d : DiscoRow) : List Cand :=
  let disco_artist := pyStrip d.artista
  let disco_title := pyStrip d.titulo
  if buscar_cruzado && !search_by_title_only rb_artist then
    let artist_rb_title_disco := similarity_score rb_artist disco_title
    let title_rb_artist_disco := similarity_score rb_title disco_artist
    if artist_rb_title_disco ≥ artist_threshold ∧
        title_rb_artist_disco ≥ title_threshold then
      let es_duplicado := seen.any (fun m =>
        m.artista_rekordbox == rb_artist && m.titulo_rekordbox == rb_title &&
        m.artista_disco == disco_artist && m.titulo_disco == disco_title)
      if es_duplicado then []
      else
        [{ artista_rekordbox := rb_artist, titulo_rekordbox := rb_title,
           artista_disco := disco_artist, titulo_disco := disco_title,
           precio := d.precio, estilos := d.estilos,
           similitud_artista := some artist_rb_title_disco,
           similitud_titulo := title_rb_artist_disco,
           similitud_total :=
             (artist_rb_title_disco + title_rb_artist_disco) / 2,
           tipo_match := TipoMatch.cruzado }]
    else []
  else []

/-- Lines 176–253: all candidates appended for one evaluated pair. -/
def candidatesForPair (artist_threshold title_threshold : ℚ)
    (buscar_cruzado : Bool) (rb_artist rb_title : List Char)
    (matchesAcc : List Cand) (d : DiscoRow) : List Cand :=
  let base := basePairCands artist_threshold title_threshold rb_artist rb_title d
  base ++ crossedPairCands artist_threshold title_threshold buscar_cruzado
    rb_artist rb_title (matchesAcc ++ base) d

/-- The engine state: accumulated candidates, the processed-pair counter
`items_procesados`, and the (progress, cumulative candidates) tuples yielded
inside the loop. -/
structure EngState where
  matchesAcc : List Cand
  procesados : Nat
  yields : List (ℚ × List Cand)

/-- Lines 168–261: one iteration of the inner (disco) loop.  A both-empty
disco row advances the counter and skips even the yield check (`continue`);
otherwise the pair is evaluated and a tuple is yielded when the counter hits
a multiple of 50 or the last pair. -/
def innerStep (total : Nat) (a_thr t_thr : ℚ) (cruzado : Bool)
    (rb_artist rb_title : List Char) (st : EngState) (d : DiscoRow) :
    EngState :=
  if bothEmptyDisco d then
    { st with procesados := st.procesados + 1 }
  else
    let newMatches :=
      st.matchesAcc ++
        candidatesForPair a_thr t_thr cruzado rb_artist rb_title st.matchesAcc d
    let p := st.procesados + 1
    if p % 50 == 0 || p == total then
      { matchesAcc := newMatches, procesados := p,
        yields := st.yields ++ [(((p : ℚ) / (total : ℚ)) * 100, newMatches)] }
    else
      { matchesAcc := newMatches, procesados := p, yields := st.yields }

/-- Lines 157–163 and the inner loop: one iteration of the outer (wishlist)
loop.  A both-empty wishlist row advances the counter by the whole catalog
size and yields nothing. -/
def rowStep (total : Nat) (a_thr t_thr : ℚ) (cruzado : Bool)
    (discos : List DiscoRow) (st : EngState) (r : RbRow) : EngState :=
  let rb_artist := pyStrip r.artista
  let rb_title := pyStrip r.titulo
  if rb_artist.isEmpty && rb_title.isEmpty then
    { st with procesados := st.procesados + discos.length }
  else
    discos.foldl (innerStep total a_thr t_thr cruzado rb_artist rb_title) st

/-- The full double loop of `find_matches_with_progress`. -/
def engineRun (a_thr t_thr : ℚ) (cruzado : Bool) (rbs : List RbRow)
    (discos : List DiscoRow) : EngState :=
  rbs.foldl (rowStep (rbs.length * discos.length) a_thr t_thr cruzado discos)
    ⟨[], 0, []⟩

/-- `find_matches_with_progress` (lines 122–265) as the list of yielded
(progress, cumulative candidates) tuples: the in-loop yields followed by the
unconditional final `yield 100, pd.DataFrame(matches), tiempo_total`.  Empty
input (the source also treats missing required columns this way) yields a
single `(100, empty)` tuple. -/
def find_matches_with_progress (a_thr t_thr : ℚ) (cruzado : Bool)
    (rbs : List RbRow) (discos : List DiscoRow) : List (ℚ × List Cand) :=
  if rbs.isEmpty || discos.isEmpty then [(100, [])]
  else
    let fin := engineRun a_thr t_thr cruzado rbs discos
    fin.yields ++ [(100, fin.matchesAcc)]

/-! ## The duration estimator (`get_tiempo_estimado`, data_storage.py,
lines 197–242) -/

/-- One `tiempos_busqueda` record: elapsed seconds and compared item
count. -/
structure Registro where
  tiempo : ℚ
  items : Nat
deriving DecidableEq

/-- Lines 215–219: per-item rates of the samples with `items > 0`. -/
def tiemposPorItem (tiempos : List Registro) : List ℚ :=
  tiempos.filterMap
    (fun r => if 0 < r.items then some (r.tiempo / (r.items : ℚ)) else none)

/-- `numpy.percentile(_, q)` on an already sorted list, default linear
interpolation: virtual index `h = q/100 · (n-1)`, result
`x⌊h⌋ + (h - ⌊h⌋) · (x⌊h⌋₊₁ - x⌊h⌋)` (the upper index clamped to the last
element). -/
def percentileLin (s : List ℚ) (q : ℚ) : ℚ :=
  if s.isEmpty then 0
  else
    let n := s.length
    let h : ℚ := q / 100 * ((n : ℚ) - 1)
    let lo : Nat := h.floor.toNat
    let f : ℚ := h - (lo : ℚ)
    let xlo := s.getD lo 0
    let xhi := s.getD (min (lo + 1) (n - 1)) 0
    xlo + f * (xhi - xlo)

/-- `numpy.percentile` sorts its input. -/
def npPercentile (l : List ℚ) (q : ℚ) : ℚ :=
  percentileLin (l.insertionSort (· ≤ ·)) q

/-- Lines 226–233: with more than 3 rates, keep only the rates inside the
box-plot fence `[Q1 - 1.5·IQR, Q3 + 1.5·IQR]`. -/
def filteredRates (rates : List ℚ) : List ℚ :=
  if 3 < rates.length then
    let q1 := npPercentile rates 25
    let q3 := npPercentile rates 75
    let iqr := q3 - q1
    let lower_bound := q1 - 3 / 2 * iqr
    let upper_bound := q3 + 3 / 2 * iqr
    rates.filter (fun t => decide (lower_bound ≤ t) && decide (t ≤ upper_bound))
  else rates

/-- `get_tiempo_estimado` (lines 197–242): `None` when the history is empty,
when no sample has `items > 0`, or when the fence filters out every rate;
otherwise the mean surviving rate times the requested item count. -/
def get_tiempo_estimado (tiempos : List Registro) (total_items : Nat) :
    Option ℚ :=
  if tiempos.isEmpty then none
  else
    let rates := tiemposPorItem tiempos
    if rates.isEmpty then none
    else
      let surv := filteredRates rates
      if surv.isEmpty then none
      else some (surv.sum / (surv.length : ℚ) * (total_items : ℚ))

/-! ## Properties of the text utilities -/

/-- Absence of two adjacent whitespace characters (the shape of a string in
which every whitespace run has been collapsed). -/
def noDoubleSpace (a b : Char) : Prop :=
  ¬(pyIsSpace a = true ∧ pyIsSpace b = true)

theorem pyStrip_eq_rdropWhile (s : List Char) :
    pyStrip s = List.rdropWhile pyIsSpace (s.dropWhile pyIsSpace) := rfl

theorem pyStrip_subset {s : List Char} : pyStrip s ⊆ s := by
  rw [pyStrip_eq_rdropWhile]
  exact fun c hc =>
    List.dropWhile_subset pyIsSpace ((List.rdropWhile_prefix _ _).subset hc)

theorem dropWhile_of_strip_eq {s : List Char} :
    List.dropWhile pyIsSpace (pyStrip s) = pyStrip s := by
  rw [pyStrip_eq_rdropWhile, List.dropWhile_eq_self_iff]
  intro hl
  have hpre := List.rdropWhile_prefix pyIsSpace (s.dropWhile pyIsSpace)
  have hlen : 0 < (s.dropWhile pyIsSpace).length :=
    Nat.lt_of_lt_of_le hl hpre.length_le
  have hget := hpre.getElem (n := 0) hl
  have hnot := List.dropWhile_get_zero_not pyIsSpace s hlen
  simpa [List.get_eq_getElem, hget] using hnot

theorem pyStrip_idem (s : List Char) : pyStrip (pyStrip s) = pyStrip s := by
  conv_lhs => rw [pyStrip_eq_rdropWhile, dropWhile_of_strip_eq,
    pyStrip_eq_rdropWhile, List.rdropWhile_idempotent]
  rw [pyStrip_eq_rdropWhile]

theorem chain'_pyStrip {s : List Char}
    (h : List.Chain' noDoubleSpace s) :
    List.Chain' noDoubleSpace (pyStrip s) := by
  rw [pyStrip_eq_rdropWhile]
  obtain ⟨l1, hl1⟩ := List.dropWhile_suffix (l := s) pyIsSpace
  have h2 : List.Chain' noDoubleSpace (s.dropWhile pyIsSpace) := by
    rw [← hl1] at h
    exact (List.chain'_append.mp h).2.1
  obtain ⟨l2, hl2⟩ := List.rdropWhile_prefix pyIsSpace (s.dropWhile pyIsSpace)
  rw [← hl2] at h2
  exact (List.chain'_append.mp h2).1

theorem toLower_idem (c : Char) :
    Char.toLower (Char.toLower c) = Char.toLower c := by
  unfold Char.toLower
  by_cases h : c.toNat ≥ 65 ∧ c.toNat ≤ 90
  · rw [if_pos h]
    obtain ⟨h1, h2⟩ := h
    set n := c.toNat with hn
    interval_cases n <;> decide
  · rw [if_neg h, if_neg h]

theorem map_fix {f : Char → Char} {l : List Char}
    (h : ∀ c ∈ l, f c = c) : l.map f = l := by
  induction l with
  | nil => rfl
  | cons c rest ih =>
    simp only [List.map_cons, h c (List.mem_cons_self c rest),
      ih (fun d hd => h d (List.mem_cons_of_mem c hd))]

theorem collapseFrom_nil (b : Bool) : collapseFrom b [] = [] := by
  cases b <;> rfl

theorem collapseFrom_cons (b : Bool) (c : Char) (rest : List Char) :
    collapseFrom b (c :: rest) =
      if pyIsSpace c then
        if b then collapseFrom true rest else ' ' :: collapseFrom true rest
      else c :: collapseFrom false rest := by
  cases b <;> rfl

theorem mem_collapseFrom {c : Char} :
    ∀ {b : Bool} {s : List Char}, c ∈ collapseFrom b s → c = ' ' ∨ c ∈ s := by
  intro b s
  induction s generalizing b with
  | nil => intro h; rw [collapseFrom_nil] at h; cases h
  | cons d rest ih =>
    intro h
    rw [collapseFrom_cons] at h
    by_cases hd : pyIsSpace d = true
    · rw [if_pos hd] at h
      cases b with
      | true =>
        rw [if_pos rfl] at h
        rcases ih h with h' | h'
        · exact Or.inl h'
        · exact Or.inr (List.mem_cons_of_mem d h')
      | false =>
        rw [if_neg (by simp)] at h
        rcases List.mem_cons.mp h with h' | h'
        · exact Or.inl h'
        · rcases ih h' with h'' | h''
          · exact Or.inl h''
          · exact Or.inr (List.mem_cons_of_mem d h'')
    · rw [if_neg hd] at h
      rcases List.mem_cons.mp h with h' | h'
      · exact Or.inr (h' ▸ List.mem_cons_self d rest)
      · rcases ih h' with h'' | h''
        · exact Or.inl h''
        · exact Or.inr (List.mem_cons_of_mem d h'')

theorem collapseFrom_space_canonical {c : Char} :
    ∀ {b : Bool} {s : List Char}, c ∈ collapseFrom b s →
      pyIsSpace c = true → c = ' ' := by
  intro b s
  induction s generalizing b with
  | nil => intro h; rw [collapseFrom_nil] at h; cases h
  | cons d rest ih =>
    intro h hc
    rw [collapseFrom_cons] at h
    by_cases hd : pyIsSpace d = true
    · rw [if_pos hd] at h
      cases b with
      | true =>
        rw [if_pos rfl] at h
        exact ih h hc
      | false =>
        rw [if_neg (by simp)] at h
        rcases List.mem_cons.mp h with h' | h'
        · exact h'
        · exact ih h' hc
    · rw [if_neg hd] at h
      rcases List.mem_cons.mp h with h' | h'
      · exact absurd (h' ▸ hc) (by simpa using hd)
      · exact ih h' hc

theorem head_collapseFrom_true {s : List Char} {c : Char}
    (h : (collapseFrom true s).head? = some c) : pyIsSpace c = false := by
  induction s with
  | nil => rw [collapseFrom_nil] at h; cases h
  | cons d rest ih =>
    rw [collapseFrom_cons] at h
    by_cases hd : pyIsSpace d = true
    · rw [if_pos hd, if_pos rfl] at h
      exact ih h
    · rw [if_neg hd] at h
      simp only [List.head?_cons, Option.some.injEq] at h
      simpa [← h] using hd

theorem chain'_collapseFrom :
    ∀ (s : List Char) (b : Bool),
      List.Chain' noDoubleSpace (collapseFrom b s) := by
  intro s
  induction s with
  | nil => intro b; rw [collapseFrom_nil]; exact List.chain'_nil
  | cons d rest ih =>
    intro b
    rw [collapseFrom_cons]
    by_cases hd : pyIsSpace d = true
    · rw [if_pos hd]
      cases b with
      | true => rw [if_pos rfl]; exact ih true
      | false =>
        rw [if_neg (by simp)]
        rw [List.chain'_cons']
        refine ⟨fun y hy => ?_, ih true⟩
        intro ⟨_, hsp⟩
        rw [head_collapseFrom_true hy] at hsp
        cases hsp
    · rw [if_neg hd]
      rw [List.chain'_cons']
      refine ⟨fun y _ => ?_, ih false⟩
      intro ⟨hsp, _⟩
      rw [hsp] at hd
      exact hd rfl

theorem collapseFrom_fixed :
    ∀ {s : List Char}, List.Chain' noDoubleSpace s →
      (∀ c ∈ s, pyIsSpace c = true → c = ' ') → collapseFrom false s = s := by
  intro s
  induction s with
  | nil => intro _ _; rfl
  | cons d rest ih =>
    intro hch hcan
    rw [collapseFrom_cons]
    have hch' : List.Chain' noDoubleSpace rest := hch.tail
    have hcan' : ∀ c ∈ rest, pyIsSpace c = true → c = ' ' :=
      fun c hc h => hcan c (List.mem_cons_of_mem d hc) h
    by_cases hd : pyIsSpace d = true
    · have hd' : d = ' ' := hcan d (List.mem_cons_self d rest) hd
      rw [if_pos hd, if_neg (by simp)]
      have htail : collapseFrom true rest = collapseFrom false rest := by
        cases rest with
        | nil => rfl
        | cons e rest' =>
          have he : pyIsSpace e = false := by
            have hrel := (List.chain'_cons.mp hch).1
            by_contra hne
            exact hrel ⟨hd, by simpa using hne⟩
          rw [collapseFrom_cons, collapseFrom_cons, if_neg (by simp [he]),
            if_neg (by simp [he])]
      rw [← hd', htail, ih hch' hcan']
    · rw [if_neg hd, ih hch' hcan']

/-- Every character of a normalized string is fixed by lower-casing, is a
word character or whitespace, no two adjacent characters are whitespace, and
every whitespace character is the canonical `' '`. -/
theorem normalize_props (s : List Char) :
    (∀ c ∈ normalize_text s, Char.toLower c = c) ∧
    (∀ c ∈ normalize_text s, (pyIsWord c || pyIsSpace c) = true) ∧
    List.Chain' noDoubleSpace (normalize_text s) ∧
    (∀ c ∈ normalize_text s, pyIsSpace c = true → c = ' ') := by
  unfold normalize_text
  by_cases hs : s.isEmpty
  · simp [hs]
  · rw [if_neg hs]
    refine ⟨?_, ?_, chain'_collapseFrom _ false, ?_⟩
    · intro c hc
      rcases mem_collapseFrom hc with h' | h'
      · rw [h']; decide
      · have hc2 : c ∈ s.map Char.toLower :=
          pyStrip_subset (List.mem_of_mem_filter h')
        obtain ⟨c₀, _, rfl⟩ := List.mem_map.mp hc2
        exact toLower_idem c₀
    · intro c hc
      rcases mem_collapseFrom hc with h' | h'
      · rw [h']; decide
      · exact (List.mem_filter.mp h').2
    · intro c hc
      exact collapseFrom_space_canonical hc

/-- On strings already enjoying the invariants of `normalize_props`,
`normalize_text` only strips the boundary whitespace. -/
theorem normalize_of_props {t : List Char}
    (h1 : ∀ c ∈ t, Char.toLower c = c)
    (h2 : ∀ c ∈ t, (pyIsWord c || pyIsSpace c) = true)
    (h3 : List.Chain' noDoubleSpace t)
    (h4 : ∀ c ∈ t, pyIsSpace c = true → c = ' ') :
    normalize_text t = pyStrip t := by
  unfold normalize_text
  by_cases ht : t.isEmpty
  · rw [if_pos ht]
    rw [List.isEmpty_iff] at ht
    rw [ht]
    rfl
  · rw [if_neg ht, map_fix h1,
      List.filter_eq_self.mpr (fun c hc => h2 c (pyStrip_subset hc))]
    exact collapseFrom_fixed (chain'_pyStrip h3)
      (fun c hc h => h4 c (pyStrip_subset hc) h)

/-! ## Claims C4 and C5: the normalizer contract and idempotence -/

/-- Specification-side collapsing of whitespace runs (claim C4's "collapsing
runs of whitespace into single spaces"), written independently of
`collapseFrom` as a right fold: a whitespace character merges into an
already-emitted leading space. -/
def collapseRuns (s : List Char) : List Char :=
  s.foldr
    (fun c acc =>
      if pyIsSpace c then
        if acc.head? == some ' ' then acc else ' ' :: acc
      else c :: acc)
    []

theorem collapseRuns_cons (d : Char) (rest : List Char) :
    collapseRuns (d :: rest) =
      if pyIsSpace d then
        if (collapseRuns rest).head? == some ' ' then collapseRuns rest
        else ' ' :: collapseRuns rest
      else d :: collapseRuns rest := rfl

theorem spaceMerge_idem (acc : List Char) :
    (if (if acc.head? == some ' ' then acc else ' ' :: acc).head? == some ' '
      then (if acc.head? == some ' ' then acc else ' ' :: acc)
      else ' ' :: (if acc.head? == some ' ' then acc else ' ' :: acc)) =
      (if acc.head? == some ' ' then acc else ' ' :: acc) := by
  by_cases h : (acc.head? == some ' ') = true
  · simp [h]
  · rw [if_neg h]
    have h2 : ((' ' :: acc).head? == some ' ') = true := by simp
    rw [if_pos h2]

theorem collapseFrom_eq_runs :
    ∀ s : List Char,
      collapseFrom false s = collapseRuns s ∧
      ' ' :: collapseFrom true s =
        (if (collapseRuns s).head? == some ' ' then collapseRuns s
         else ' ' :: collapseRuns s) := by
  intro s
  induction s with
  | nil => exact ⟨rfl, rfl⟩
  | cons d rest ih =>
    obtain ⟨ihA, ihB⟩ := ih
    by_cases hd : pyIsSpace d = true
    · constructor
      · rw [collapseFrom_cons, if_pos hd, if_neg (by simp),
          collapseRuns_cons, if_pos hd]
        exact ihB
      · rw [collapseFrom_cons, if_pos hd, if_pos rfl, collapseRuns_cons,
          if_pos hd, spaceMerge_idem]
        exact ihB
    · have hd' : (d == ' ') = false := by
        by_contra hne
        rw [Bool.not_eq_false, beq_iff_eq] at hne
        rw [hne] at hd
        exact hd (by decide)
      constructor
      · rw [collapseFrom_cons, if_neg hd, collapseRuns_cons, if_neg hd, ihA]
      · rw [collapseFrom_cons, if_neg hd, collapseRuns_cons, if_neg hd]
        have hdne : d ≠ ' ' := by simpa using hd'
        rw [if_neg (by simp [hdne]), ihA]

/-- Claim C4's normalizer, formalized from the specification's wording:
lower-case, strip leading/trailing whitespace, remove every character that is
neither alphanumeric nor whitespace, collapse whitespace runs (operations in
that order). -/
def normalize_claimC4 (s : List Char) : List Char :=
  collapseRuns ((pyStrip (s.map Char.toLower)).filter
    (fun c => c.isAlphanum || pyIsSpace c))

/-- Claim C4 as amended: the characters kept are Python's word characters —
alphanumeric or underscore — or whitespace, matching the source's `[^\w\s]`
pattern. -/
def normalize_amendedC4 (s : List Char) : List Char :=
  collapseRuns ((pyStrip (s.map Char.toLower)).filter
    (fun c => (c.isDigit || c.isAlpha || c == '_') || pyIsSpace c))

/-- C4, counterexample: the claim's removal clause deletes the underscore
(not alphanumeric), but the source's `[^\w\s]` keeps it:
`normalize_text "_" = "_"` while the claimed contract yields `""`. -/
theorem c4_normalizer_cex : normalize_text ['_'] ≠ normalize_claimC4 ['_'] := by
  decide

/-- C4, amended: for every string, `normalize_text` lower-cases, strips
leading and trailing whitespace, removes every character that is neither a
word character (alphanumeric or underscore) nor whitespace, and collapses
every whitespace run to a single space — in that order; empty input
normalizes to the empty string (the `s = []` instance). -/
theorem c4_normalizer (s : List Char) :
    normalize_text s = normalize_amendedC4 s := by
  unfold normalize_text normalize_amendedC4
  by_cases hs : s.isEmpty
  · rw [if_pos hs]
    rw [List.isEmpty_iff] at hs
    rw [hs]
    rfl
  · rw [if_neg hs]
    have hfilter : (fun c => pyIsWord c || pyIsSpace c) =
        (fun c : Char => (c.isDigit || c.isAlpha || c == '_') || pyIsSpace c) := by
      funext c
      unfold pyIsWord Char.isAlphanum
      cases h1 : c.isAlpha <;> cases h2 : c.isDigit <;> simp [h1, h2]
    rw [← hfilter]
    exact (collapseFrom_eq_runs _).1

/-- C5, counterexample: normalization is not idempotent; removing the `'!'`
of `"a !"` exposes a trailing space that only a second pass strips:
`normalize_text "a !" = "a "` but `normalize_text "a " = "a"`. -/
theorem c5_normalize_not_idempotent_cex :
    normalize_text (normalize_text ['a', ' ', '!']) ≠
      normalize_text ['a', ' ', '!'] := by
  decide

/-- C5, amended: one further application of `normalize_text` reaches a fixed
point — `normalize (normalize s)` is a fixed point of `normalize` for every
`s` (idempotence as claimed fails only on the first application, when
removing a special character exposes boundary whitespace). -/
theorem c5_normalize_twice_stable (s : List Char) :
    normalize_text (normalize_text (normalize_text s)) =
      normalize_text (normalize_text s) := by
  obtain ⟨h1, h2, h3, h4⟩ := normalize_props s
  have hNt : normalize_text (normalize_text s) = pyStrip (normalize_text s) :=
    normalize_of_props h1 h2 h3 h4
  have hNNt : normalize_text (pyStrip (normalize_text s)) =
      pyStrip (pyStrip (normalize_text s)) :=
    normalize_of_props (fun c hc => h1 c (pyStrip_subset hc))
      (fun c hc => h2 c (pyStrip_subset hc)) (chain'_pyStrip h3)
      (fun c hc h => h4 c (pyStrip_subset hc) h)
  rw [hNt, hNNt, pyStrip_idem, ← hNt]

/-! ## Claim C3: the artist-prefix splitter branch -/

/-- C3: evaluation of `separate_artist_title` at a row whose title starts
with the artist followed by the `" - "` separator.  The source computes
`titulo_clean = titulo[len(artista):].strip()`, and the strip removes the
leading space — yet every separator pattern begins with a space, so the
`titulo_clean.startswith(sep)` test (and with it the whole repair the
function's own comments promise) can never fire: the row comes back
unchanged instead of having artist prefix and separator removed. -/
theorem c3_splitter_unchanged_on_failing_input :
    separate_artist_title ⟨['A', 'B'], ['A', 'B', ' ', '-', ' ', 'C', 'D']⟩ =
      ⟨['A', 'B'], ['A', 'B', ' ', '-', ' ', 'C', 'D']⟩ := by
  decide

/-! ## Claim C6: symmetry of the similarity scorer -/

/-- C6, counterexample: `SequenceMatcher.ratio` is not symmetric — its
greedy longest-block decomposition depends on the argument order.  On the
(already normalized) strings `"abcb"` and `"bcab"` the score is `1/2` one
way and `3/4` the other. -/
theorem c6_similarity_not_symmetric_cex :
    similarity_score ['a', 'b', 'c', 'b'] ['b', 'c', 'a', 'b'] ≠
      similarity_score ['b', 'c', 'a', 'b'] ['a', 'b', 'c', 'b'] := by
  decide

/-- C6, amended: the similarity scorer is symmetric on every pair of strings
whose normalized forms coincide (both directions then score the ratio of a
string against itself); in general `similarity(a,b) ≠ similarity(b,a)`. -/
theorem c6_similarity_symm_of_normalize_eq (a b : List Char)
    (h : normalize_text a = normalize_text b) :
    similarity_score a b = similarity_score b a := by
  unfold similarity_score
  rw [h]

theorem c6_similarity_symm_witness :
    normalize_text ['A', 'B'] = normalize_text ['a', 'b'] ∧
      similarity_score ['A', 'B'] ['a', 'b'] =
        similarity_score ['a', 'b'] ['A', 'B'] :=
  ⟨by decide, c6_similarity_symm_of_normalize_eq _ _ (by decide)⟩

/-! ## Claim C9: title-only mode -/

/-- C9: for a wishlist row whose (stripped) artist is empty or a
case-insensitive `"unknown"`/`"desconocido"` sentinel, every evaluated
catalog row (one not skipped as empty on both fields) is compared in
title-only mode: exactly one `Título` candidate is emitted when the title
similarity reaches `title_threshold` — carrying `similitud_artista = N/A`
(`none`), `similitud_total` equal to the title similarity, and the `N/A`
artist placeholder when the artist is empty — and nothing is emitted
otherwise; in particular no normal-mode or crossed-mode candidate arises
from such a row. -/
theorem c9_title_only_mode (a_thr t_thr : ℚ) (cruzado : Bool)
    (rb_artist rb_title : List Char) (matchesAcc : List Cand) (d : DiscoRow)
    (hMode : search_by_title_only rb_artist = true)
    (hEval : bothEmptyDisco d = false) :
    candidatesForPair a_thr t_thr cruzado rb_artist rb_title matchesAcc d =
      (if similarity_score rb_title (pyStrip d.titulo) ≥ t_thr then
        [{ artista_rekordbox := if rb_artist.isEmpty then naLit else rb_artist,
           titulo_rekordbox := rb_title,
           artista_disco := pyStrip d.artista,
           titulo_disco := pyStrip d.titulo,
           precio := d.precio, estilos := d.estilos,
           similitud_artista := none,
           similitud_titulo := similarity_score rb_title (pyStrip d.titulo),
           similitud_total := similarity_score rb_title (pyStrip d.titulo),
           tipo_match := TipoMatch.titulo }]
      else []) := by
  unfold candidatesForPair basePairCands crossedPairCands
  simp only [hMode, if_true, Bool.not_true, Bool.and_false, Bool.false_eq_true,
    if_false, List.append_nil]

theorem c9_title_only_witness :
    search_by_title_only ['u', 'n', 'k', 'n', 'o', 'w', 'n'] = true ∧
      bothEmptyDisco ⟨['x'], ['b'], [], []⟩ = false ∧
      candidatesForPair (7/10) (7/10) true
          ['u', 'n', 'k', 'n', 'o', 'w', 'n'] ['b'] [] ⟨['x'], ['b'], [], []⟩ =
        (if similarity_score ['b'] (pyStrip (['b'] : List Char)) ≥ (7:ℚ)/10 then
          [{ artista_rekordbox :=
               if (['u', 'n', 'k', 'n', 'o', 'w', 'n'] : List Char).isEmpty
               then naLit else ['u', 'n', 'k', 'n', 'o', 'w', 'n'],
             titulo_rekordbox := ['b'],
             artista_disco := pyStrip (['x'] : List Char),
             titulo_disco := pyStrip (['b'] : List Char),
             precio := [], estilos := [],
             similitud_artista := none,
             similitud_titulo := similarity_score ['b'] (pyStrip (['b'] : List Char)),
             similitud_total := similarity_score ['b'] (pyStrip (['b'] : List Char)),
             tipo_match := TipoMatch.titulo }]
        else []) :=
  ⟨by decide, by decide,
    c9_title_only_mode (7/10) (7/10) true _ _ [] _ (by decide) (by decide)⟩

/-! ## Claim C1: normal-mode emission -/

/-- C1: for a pair evaluated in normal mode (catalog row not skipped as
empty, wishlist artist present and not a sentinel): a `Normal` candidate is
emitted iff both similarities reach their thresholds; a `Título fuerte`
(StrongTitle) candidate is emitted iff that condition fails while
`title_similarity ≥ 0.9` and `artist_similarity ≥ 0.5`; both carry
`similitud_total = (artist_similarity + title_similarity) / 2`; and the two
are never emitted together for the same pair. -/
theorem c1_normal_strong_emission (a_thr t_thr : ℚ) (cruzado : Bool)
    (rb_artist rb_title : List Char) (matchesAcc : List Cand) (d : DiscoRow)
    (hEval : bothEmptyDisco d = false)
    (hMode : search_by_title_only rb_artist = false) :
    ((∃ c ∈ candidatesForPair a_thr t_thr cruzado rb_artist rb_title matchesAcc d,
        c.tipo_match = TipoMatch.normal) ↔
      (similarity_score rb_artist (pyStrip d.artista) ≥ a_thr ∧
        similarity_score rb_title (pyStrip d.titulo) ≥ t_thr)) ∧
    ((∃ c ∈ candidatesForPair a_thr t_thr cruzado rb_artist rb_title matchesAcc d,
        c.tipo_match = TipoMatch.tituloFuerte) ↔
      (¬(similarity_score rb_artist (pyStrip d.artista) ≥ a_thr ∧
          similarity_score rb_title (pyStrip d.titulo) ≥ t_thr) ∧
        similarity_score rb_title (pyStrip d.titulo) ≥ (9 : ℚ) / 10 ∧
        similarity_score rb_artist (pyStrip d.artista) ≥ (1 : ℚ) / 2)) ∧
    (∀ c ∈ candidatesForPair a_thr t_thr cruzado rb_artist rb_title matchesAcc d,
      (c.tipo_match = TipoMatch.normal ∨ c.tipo_match = TipoMatch.tituloFuerte) →
        c.similitud_total =
          (similarity_score rb_artist (pyStrip d.artista) +
            similarity_score rb_title (pyStrip d.titulo)) / 2) ∧
    ¬((∃ c ∈ candidatesForPair a_thr t_thr cruzado rb_artist rb_title matchesAcc d,
        c.tipo_match = TipoMatch.normal) ∧
      (∃ c ∈ candidatesForPair a_thr t_thr cruzado rb_artist rb_title matchesAcc d,
        c.tipo_match = TipoMatch.tituloFuerte)) := by
  unfold candidatesForPair basePairCands crossedPairCands
  simp only [hMode, Bool.false_eq_true, if_false, Bool.not_false, Bool.and_true]
  split_ifs with h1 h2 h3 h4 h5 h6 h7 h8 <;>
    simp_all <;> tauto

theorem c1_normal_strong_witness :
    bothEmptyDisco ⟨['a'], ['b'], [], []⟩ = false ∧
    search_by_title_only ['a'] = false ∧
    (((∃ c ∈ candidatesForPair (7/10) (7/10) false ['a'] ['b'] []
          ⟨['a'], ['b'], [], []⟩, c.tipo_match = TipoMatch.normal) ↔
        (similarity_score ['a'] (pyStrip (['a'] : List Char)) ≥ (7:ℚ)/10 ∧
          similarity_score ['b'] (pyStrip (['b'] : List Char)) ≥ (7:ℚ)/10)) ∧
      ((∃ c ∈ candidatesForPair (7/10) (7/10) false ['a'] ['b'] []
          ⟨['a'], ['b'], [], []⟩, c.tipo_match = TipoMatch.tituloFuerte) ↔
        (¬(similarity_score ['a'] (pyStrip (['a'] : List Char)) ≥ (7:ℚ)/10 ∧
            similarity_score ['b'] (pyStrip (['b'] : List Char)) ≥ (7:ℚ)/10) ∧
          similarity_score ['b'] (pyStrip (['b'] : List Char)) ≥ (9 : ℚ) / 10 ∧
          similarity_score ['a'] (pyStrip (['a'] : List Char)) ≥ (1 : ℚ) / 2)) ∧
      (∀ c ∈ candidatesForPair (7/10) (7/10) false ['a'] ['b'] []
          ⟨['a'], ['b'], [], []⟩,
        (c.tipo_match = TipoMatch.normal ∨ c.tipo_match = TipoMatch.tituloFuerte) →
          c.similitud_total =
            (similarity_score ['a'] (pyStrip (['a'] : List Char)) +
              similarity_score ['b'] (pyStrip (['b'] : List Char))) / 2) ∧
      ¬((∃ c ∈ candidatesForPair (7/10) (7/10) false ['a'] ['b'] []
            ⟨['a'], ['b'], [], []⟩, c.tipo_match = TipoMatch.normal) ∧
        (∃ c ∈ candidatesForPair (7/10) (7/10) false ['a'] ['b'] []
            ⟨['a'], ['b'], [], []⟩, c.tipo_match = TipoMatch.tituloFuerte))) :=
  ⟨by decide, by decide,
    c1_normal_strong_emission (7/10) (7/10) false ['a'] ['b'] []
      ⟨['a'], ['b'], [], []⟩ (by decide) (by decide)⟩

/-! ## Claim C7: crossed mode never duplicates an earlier candidate -/

/-- Relation between an earlier and a later candidate: if the later one is a
crossed match, their endpoint-field tuples differ. -/
def crossedFresh (m c : Cand) : Prop :=
  c.tipo_match = TipoMatch.cruzado →
    (m.artista_rekordbox, m.titulo_rekordbox, m.artista_disco, m.titulo_disco) ≠
      (c.artista_rekordbox, c.titulo_rekordbox, c.artista_disco, c.titulo_disco)

theorem basePairCands_not_crossed (a_thr t_thr : ℚ) (ra rt : List Char)
    (d : DiscoRow) :
    ∀ c ∈ basePairCands a_thr t_thr ra rt d,
      c.tipo_match ≠ TipoMatch.cruzado := by
  intro c hc
  unfold basePairCands at hc
  dsimp only at hc
  split_ifs at hc <;>
    first
    | exact absurd hc (List.not_mem_nil c)
    | (rw [List.mem_singleton] at hc
       rw [hc]
       exact fun h => TipoMatch.noConfusion h)

theorem crossedPairCands_fresh (a_thr t_thr : ℚ) (cz : Bool)
    (ra rt : List Char) (seen : List Cand) (d : DiscoRow) :
    ∀ c ∈ crossedPairCands a_thr t_thr cz ra rt seen d, ∀ m ∈ seen,
      (m.artista_rekordbox, m.titulo_rekordbox, m.artista_disco, m.titulo_disco) ≠
        (c.artista_rekordbox, c.titulo_rekordbox, c.artista_disco,
          c.titulo_disco) := by
  intro c hc m hm
  unfold crossedPairCands at hc
  dsimp only at hc
  split_ifs at hc with h1 h2 h3 <;>
    first
    | exact absurd hc (List.not_mem_nil c)
    | (rw [List.mem_singleton] at hc
       rw [hc]
       intro heq
       dsimp only at heq
       rw [Prod.mk.injEq, Prod.mk.injEq, Prod.mk.injEq] at heq
       obtain ⟨e1, e2, e3, e4⟩ := heq
       rw [Bool.not_eq_true, List.any_eq_false] at h3
       exact h3 m hm (by simp [e1, e2, e3, e4]))

theorem length_basePairCands (a_thr t_thr : ℚ) (ra rt : List Char)
    (d : DiscoRow) : (basePairCands a_thr t_thr ra rt d).length ≤ 1 := by
  unfold basePairCands
  dsimp only
  split_ifs <;> simp

theorem length_crossedPairCands (a_thr t_thr : ℚ) (cz : Bool)
    (ra rt : List Char) (seen : List Cand) (d : DiscoRow) :
    (crossedPairCands a_thr t_thr cz ra rt seen d).length ≤ 1 := by
  unfold crossedPairCands
  dsimp only
  split_ifs <;> simp

theorem pairwise_short {l : List Cand} (h : l.length ≤ 1) :
    List.Pairwise crossedFresh l := by
  cases l with
  | nil => exact List.Pairwise.nil
  | cons x xs =>
    cases xs with
    | nil => exact List.pairwise_singleton _ x
    | cons y ys => simp at h

theorem pairwise_crossedFresh_append (a_thr t_thr : ℚ) (cz : Bool)
    (ra rt : List Char) (ms : List Cand) (d : DiscoRow)
    (h : List.Pairwise crossedFresh ms) :
    List.Pairwise crossedFresh
      (ms ++ candidatesForPair a_thr t_thr cz ra rt ms d) := by
  unfold candidatesForPair
  have hfresh := crossedPairCands_fresh a_thr t_thr cz ra rt
    (ms ++ basePairCands a_thr t_thr ra rt d) d
  have hbase := basePairCands_not_crossed a_thr t_thr ra rt d
  rw [List.pairwise_append]
  refine ⟨h, ?_, ?_⟩
  · rw [List.pairwise_append]
    refine ⟨pairwise_short (length_basePairCands ..),
      pairwise_short (length_crossedPairCands ..), ?_⟩
    intro x hx y hy _
    exact hfresh y hy x (List.mem_append_right ms hx)
  · intro m hm c hc
    rcases List.mem_append.mp hc with hb | hcz
    · exact fun htip => absurd htip (hbase c hb)
    · exact fun _ => hfresh c hcz m (List.mem_append_left _ hm)

theorem pairwise_innerStep (total : Nat) (a_thr t_thr : ℚ) (cz : Bool)
    (ra rt : List Char) (st : EngState) (d : DiscoRow)
    (h : List.Pairwise crossedFresh st.matchesAcc) :
    List.Pairwise crossedFresh
      ((innerStep total a_thr t_thr cz ra rt st d).matchesAcc) := by
  unfold innerStep
  dsimp only
  split_ifs <;>
    first
    | simpa using h
    | simpa using pairwise_crossedFresh_append a_thr t_thr cz ra rt
        st.matchesAcc d h

theorem pairwise_foldl_inner (total : Nat) (a_thr t_thr : ℚ) (cz : Bool)
    (ra rt : List Char) :
    ∀ (discos : List DiscoRow) (st : EngState),
      List.Pairwise crossedFresh st.matchesAcc →
      List.Pairwise crossedFresh
        ((discos.foldl (innerStep total a_thr t_thr cz ra rt) st).matchesAcc) := by
  intro discos
  induction discos with
  | nil => intro st h; exact h
  | cons d rest ih =>
    intro st h
    exact ih (innerStep total a_thr t_thr cz ra rt st d)
      (pairwise_innerStep total a_thr t_thr cz ra rt st d h)

theorem pairwise_rowStep (total : Nat) (a_thr t_thr : ℚ) (cz : Bool)
    (discos : List DiscoRow) (st : EngState) (r : RbRow)
    (h : List.Pairwise crossedFresh st.matchesAcc) :
    List.Pairwise crossedFresh
      ((rowStep total a_thr t_thr cz discos st r).matchesAcc) := by
  unfold rowStep
  dsimp only
  split_ifs
  · simpa using h
  · exact pairwise_foldl_inner total a_thr t_thr cz _ _ discos st h

theorem pairwise_foldl_rows (total : Nat) (a_thr t_thr : ℚ) (cz : Bool)
    (discos : List DiscoRow) :
    ∀ (rbs : List RbRow) (st : EngState),
      List.Pairwise crossedFresh st.matchesAcc →
      List.Pairwise crossedFresh
        ((rbs.foldl (rowStep total a_thr t_thr cz discos) st).matchesAcc) := by
  intro rbs
  induction rbs with
  | nil => intro st h; exact h
  | cons r rest ih =>
    intro st h
    exact ih (rowStep total a_thr t_thr cz discos st r)
      (pairwise_rowStep total a_thr t_thr cz discos st r h)

theorem pairwise_engineRun (a_thr t_thr : ℚ) (cz : Bool) (rbs : List RbRow)
    (discos : List DiscoRow) :
    List.Pairwise crossedFresh
      ((engineRun a_thr t_thr cz rbs discos).matchesAcc) :=
  pairwise_foldl_rows (rbs.length * discos.length) a_thr t_thr cz discos rbs
    ⟨[], 0, []⟩ List.Pairwise.nil

/-- C7: in the candidate list produced by a full matching run, no crossed
candidate repeats the (wishlist_artist, wishlist_title, catalog_artist,
catalog_title) tuple of any earlier candidate of any match type — the
crossed-mode duplicate check never lets such a duplicate through. -/
theorem c7_no_crossed_duplicates (a_thr t_thr : ℚ) (cruzado : Bool)
    (rbs : List RbRow) (discos : List DiscoRow) (l1 l2 : List Cand) (c : Cand)
    (hsplit : (engineRun a_thr t_thr cruzado rbs discos).matchesAcc =
      l1 ++ c :: l2)
    (htipo : c.tipo_match = TipoMatch.cruzado) :
    ∀ m ∈ l1,
      (m.artista_rekordbox, m.titulo_rekordbox, m.artista_disco,
        m.titulo_disco) ≠
      (c.artista_rekordbox, c.titulo_rekordbox, c.artista_disco,
        c.titulo_disco) := by
  intro m hm
  have hpw := pairwise_engineRun a_thr t_thr cruzado rbs discos
  rw [hsplit, List.pairwise_append] at hpw
  exact hpw.2.2 m hm c (List.mem_cons_self c l2) htipo

theorem c7_no_crossed_duplicates_witness :
    ((engineRun (7/10) (7/10) true [⟨['a'], ['b']⟩]
        [⟨['a'], ['b'], [], []⟩, ⟨['b'], ['a'], [], []⟩]).matchesAcc =
      [⟨['a'], ['b'], ['a'], ['b'], [], [], some 1, 1, 1, TipoMatch.normal⟩] ++
        (⟨['a'], ['b'], ['b'], ['a'], [], [], some 1, 1, 1,
          TipoMatch.cruzado⟩ : Cand) :: []) ∧
    (⟨['a'], ['b'], ['b'], ['a'], [], [], some 1, 1, 1,
      TipoMatch.cruzado⟩ : Cand).tipo_match = TipoMatch.cruzado ∧
    ∀ m ∈ [(⟨['a'], ['b'], ['a'], ['b'], [], [], some 1, 1, 1,
        TipoMatch.normal⟩ : Cand)],
      (m.artista_rekordbox, m.titulo_rekordbox, m.artista_disco,
        m.titulo_disco) ≠
      ((⟨['a'], ['b'], ['b'], ['a'], [], [], some 1, 1, 1,
          TipoMatch.cruzado⟩ : Cand).artista_rekordbox,
        (⟨['a'], ['b'], ['b'], ['a'], [], [], some 1, 1, 1,
          TipoMatch.cruzado⟩ : Cand).titulo_rekordbox,
        (⟨['a'], ['b'], ['b'], ['a'], [], [], some 1, 1, 1,
          TipoMatch.cruzado⟩ : Cand).artista_disco,
        (⟨['a'], ['b'], ['b'], ['a'], [], [], some 1, 1, 1,
          TipoMatch.cruzado⟩ : Cand).titulo_disco) :=
  ⟨by decide, by decide,
    c7_no_crossed_duplicates (7/10) (7/10) true [⟨['a'], ['b']⟩]
      [⟨['a'], ['b'], [], []⟩, ⟨['b'], ['a'], [], []⟩]
      [⟨['a'], ['b'], ['a'], ['b'], [], [], some 1, 1, 1, TipoMatch.normal⟩]
      [] _ (by decide) (by decide)⟩

/-! ## Claims C8 and C10: the duration estimator -/

theorem tiemposPorItem_eq_nil (tiempos : List Registro) :
    tiemposPorItem tiempos = [] ↔ ∀ r ∈ tiempos, r.items = 0 := by
  unfold tiemposPorItem
  rw [List.filterMap_eq_nil_iff]
  constructor
  · intro h r hr
    have h2 := h r hr
    by_contra hne
    rw [if_pos (Nat.pos_of_ne_zero hne)] at h2
    cases h2
  · intro h r hr
    rw [h r hr]
    rfl

theorem rat_floor_eq_int_floor (q : ℚ) : q.floor = ⌊q⌋ := rfl

theorem floor_natCast_div_four (m : ℕ) :
    ⌊(m : ℚ) / 4⌋ = ((m / 4 : ℕ) : ℤ) := by
  rw [Int.floor_eq_iff]
  have h4 : (0 : ℚ) < 4 := by norm_num
  constructor
  · rw [Int.cast_natCast, le_div_iff h4]
    exact_mod_cast Nat.div_mul_le_self m 4
  · rw [Int.cast_natCast, div_lt_iff h4]
    have hlt : m < (m / 4 + 1) * 4 := by omega
    exact_mod_cast hlt

theorem sorted_getD_le {s : List ℚ} (hs : List.Sorted (· ≤ ·) s) {i j : ℕ}
    (hij : i ≤ j) (hj : j < s.length) : s.getD i 0 ≤ s.getD j 0 := by
  have hi : i < s.length := lt_of_le_of_lt hij hj
  rw [List.getD_eq_getElem?_getD, List.getElem?_eq_getElem hi, Option.getD_some,
    List.getD_eq_getElem?_getD, List.getElem?_eq_getElem hj, Option.getD_some]
  have := List.Sorted.rel_get_of_le hs (a := ⟨i, hi⟩) (b := ⟨j, hj⟩) hij
  simpa using this

theorem percentile25_le_getD {s : List ℚ} (hs : List.Sorted (· ≤ ·) s)
    (hn : 4 ≤ s.length) :
    percentileLin s 25 ≤ s.getD ((s.length - 1) / 4 + 1) 0 := by
  have hne : s.isEmpty = false := by
    cases s
    · simp at hn
    · rfl
  rw [percentileLin, if_neg (by rw [hne]; exact Bool.false_ne_true)]
  dsimp only
  have hm1 : ((s.length : ℚ) - 1) = ((s.length - 1 : ℕ) : ℚ) := by
    push_cast [Nat.cast_sub (by omega : 1 ≤ s.length)]
    ring
  rw [show (25 : ℚ) / 100 * ((s.length : ℚ) - 1) =
      ((s.length - 1 : ℕ) : ℚ) / 4 by rw [hm1]; ring]
  rw [rat_floor_eq_int_floor, floor_natCast_div_four, Int.toNat_natCast]
  set m := s.length - 1 with hm
  have hmin : min (m / 4 + 1) (s.length - 1) = m / 4 + 1 := by omega
  rw [hmin]
  have hf0 : ((m / 4 : ℕ) : ℚ) ≤ (m : ℚ) / 4 := by
    rw [le_div_iff (by norm_num : (0:ℚ) < 4)]
    exact_mod_cast Nat.div_mul_le_self m 4
  have hf1 : (m : ℚ) / 4 - ((m / 4 : ℕ) : ℚ) ≤ 1 := by
    rw [sub_le_iff_le_add, div_le_iff (by norm_num : (0:ℚ) < 4)]
    have hle : m ≤ (m / 4 + 1) * 4 := by omega
    have hle2 : (m : ℚ) ≤ (((m / 4 + 1) * 4 : ℕ) : ℚ) := by exact_mod_cast hle
    push_cast at hle2
    linarith
  have hxx : s.getD (m / 4) 0 ≤ s.getD (m / 4 + 1) 0 :=
    sorted_getD_le hs (by omega) (by omega)
  have hmul := mul_le_mul_of_nonneg_right hf1 (sub_nonneg.mpr hxx)
  linarith

theorem getD_le_percentile75 {s : List ℚ} (hs : List.Sorted (· ≤ ·) s)
    (hn : 4 ≤ s.length) :
    s.getD ((3 * (s.length - 1)) / 4) 0 ≤ percentileLin s 75 := by
  have hne : s.isEmpty = false := by
    cases s
    · simp at hn
    · rfl
  rw [percentileLin, if_neg (by rw [hne]; exact Bool.false_ne_true)]
  dsimp only
  have hm1 : ((s.length : ℚ) - 1) = ((s.length - 1 : ℕ) : ℚ) := by
    push_cast [Nat.cast_sub (by omega : 1 ≤ s.length)]
    ring
  rw [show (75 : ℚ) / 100 * ((s.length : ℚ) - 1) =
      ((3 * (s.length - 1) : ℕ) : ℚ) / 4 by rw [hm1]; push_cast; ring]
  rw [rat_floor_eq_int_floor, floor_natCast_div_four, Int.toNat_natCast]
  set m := s.length - 1 with hm
  have hf0 : ((3 * m / 4 : ℕ) : ℚ) ≤ ((3 * m : ℕ) : ℚ) / 4 := by
    rw [le_div_iff (by norm_num : (0:ℚ) < 4)]
    exact_mod_cast Nat.div_mul_le_self (3 * m) 4
  have hxx : s.getD (3 * m / 4) 0 ≤
      s.getD (min (3 * m / 4 + 1) (s.length - 1)) 0 :=
    sorted_getD_le hs (by omega) (by omega)
  have hmul := mul_le_mul_of_nonneg_right (sub_nonneg.mpr hxx)
    (sub_nonneg.mpr hf0)
  nlinarith [hmul]

theorem exists_rate_in_fence {rates : List ℚ} (h4 : 3 < rates.length) :
    ∃ x ∈ rates,
      npPercentile rates 25 -
          3 / 2 * (npPercentile rates 75 - npPercentile rates 25) ≤ x ∧
        x ≤ npPercentile rates 75 +
          3 / 2 * (npPercentile rates 75 - npPercentile rates 25) := by
  have hperm := List.perm_insertionSort (· ≤ ·) rates
  have hs : List.Sorted (· ≤ ·) (rates.insertionSort (· ≤ ·)) :=
    List.sorted_insertionSort (· ≤ ·) rates
  have hlen : (rates.insertionSort (· ≤ ·)).length = rates.length :=
    hperm.length_eq
  set s := rates.insertionSort (· ≤ ·) with hsdef
  have hn : 4 ≤ s.length := by omega
  have hx1 := percentile25_le_getD hs hn
  have hx3 := getD_le_percentile75 hs hn
  have hx2 : s.getD ((s.length - 1) / 4 + 1) 0 ≤
      s.getD ((3 * (s.length - 1)) / 4) 0 :=
    sorted_getD_le hs (by omega) (by omega)
  have hival : (s.length - 1) / 4 + 1 < s.length := by omega
  refine ⟨s.getD ((s.length - 1) / 4 + 1) 0, ?_, ?_, ?_⟩
  · rw [List.getD_eq_getElem?_getD, List.getElem?_eq_getElem hival,
      Option.getD_some]
    exact hperm.mem_iff.mp (List.getElem_mem hival)
  · show npPercentile rates 25 - _ ≤ _
    unfold npPercentile
    linarith
  · show _ ≤ npPercentile rates 75 + _
    unfold npPercentile
    linarith

theorem filteredRates_ne_nil {rates : List ℚ} (h : rates ≠ []) :
    filteredRates rates ≠ [] := by
  unfold filteredRates
  dsimp only
  split_ifs with hlen
  · obtain ⟨x, hx, hlb, hub⟩ := exists_rate_in_fence hlen
    apply List.ne_nil_of_mem (a := x)
    rw [List.mem_filter]
    refine ⟨hx, ?_⟩
    rw [Bool.and_eq_true, decide_eq_true_iff, decide_eq_true_iff]
    exact ⟨hlb, hub⟩
  · exact h

/-- C10: the duration estimator returns a non-null estimate exactly when at
least one history sample has a positive item count.  In particular the
"every rate filtered out" branch is unreachable: with 4 or more rates, some
rate always lies inside the `[Q1 - 1.5·IQR, Q3 + 1.5·IQR]` fence. -/
theorem c10_estimate_iff_positive_sample (tiempos : List Registro)
    (total_items : Nat) :
    (get_tiempo_estimado tiempos total_items).isSome ↔
      ∃ r ∈ tiempos, 0 < r.items := by
  constructor
  · intro h
    unfold get_tiempo_estimado at h
    dsimp only at h
    split_ifs at h with h1 h2 h3 <;> try cases h
    by_contra hno
    push_neg at hno
    have : tiemposPorItem tiempos = [] :=
      (tiemposPorItem_eq_nil tiempos).mpr (fun r hr => by
        have := hno r hr
        omega)
    rw [← List.isEmpty_iff] at this
    exact h2 this
  · rintro ⟨r, hr, hpos⟩
    unfold get_tiempo_estimado
    dsimp only
    split_ifs with h1 h2 h3
    · rw [List.isEmpty_iff] at h1
      rw [h1] at hr
      cases hr
    · rw [List.isEmpty_iff, tiemposPorItem_eq_nil] at h2
      have := h2 r hr
      omega
    · rw [List.isEmpty_iff] at h2 h3
      exact absurd h3 (filteredRates_ne_nil h2)
    · rfl

theorem c10_estimate_iff_witness :
    (get_tiempo_estimado [⟨3, 2⟩] 10).isSome ↔
      ∃ r ∈ [(⟨3, 2⟩ : Registro)], 0 < r.items :=
  c10_estimate_iff_positive_sample [⟨3, 2⟩] 10

/-- C8: the duration estimator's contract.  Rates are the per-item times of
the samples with positive item count; the result is null exactly when the
history is empty, no sample has a positive item count, or the box-plot fence
filters out every rate; otherwise it is the mean surviving rate times the
requested item count.  With at most 3 rates the fence is not applied; with 4
or more, survivors are exactly the rates inside
`[Q1 - 1.5·IQR, Q3 + 1.5·IQR]`, the quartiles computed by the
linear-interpolation percentile method on the sorted rates. -/
theorem c8_estimator_contract (tiempos : List Registro) (total_items : Nat) :
    (get_tiempo_estimado tiempos total_items = none ↔
      (tiempos = [] ∨ (∀ r ∈ tiempos, r.items = 0) ∨
        filteredRates (tiemposPorItem tiempos) = [])) ∧
    (∀ e, get_tiempo_estimado tiempos total_items = some e →
      e = (filteredRates (tiemposPorItem tiempos)).sum /
            ((filteredRates (tiemposPorItem tiempos)).length : ℚ) *
          (total_items : ℚ)) ∧
    ((tiemposPorItem tiempos).length ≤ 3 →
      filteredRates (tiemposPorItem tiempos) = tiemposPorItem tiempos) ∧
    (3 < (tiemposPorItem tiempos).length →
      filteredRates (tiemposPorItem tiempos) =
        (tiemposPorItem tiempos).filter (fun t =>
          decide (npPercentile (tiemposPorItem tiempos) 25 -
              3 / 2 * (npPercentile (tiemposPorItem tiempos) 75 -
                npPercentile (tiemposPorItem tiempos) 25) ≤ t) &&
          decide (t ≤ npPercentile (tiemposPorItem tiempos) 75 +
              3 / 2 * (npPercentile (tiemposPorItem tiempos) 75 -
                npPercentile (tiemposPorItem tiempos) 25)))) := by
  refine ⟨?_, ?_, ?_, ?_⟩
  · unfold get_tiempo_estimado
    dsimp only
    split_ifs with h1 h2 h3
    · rw [List.isEmpty_iff] at h1
      simp [h1]
    · rw [List.isEmpty_iff, tiemposPorItem_eq_nil] at h2
      exact ⟨fun _ => Or.inr (Or.inl h2), fun _ => rfl⟩
    · rw [List.isEmpty_iff] at h3
      exact ⟨fun _ => Or.inr (Or.inr h3), fun _ => rfl⟩
    · rw [List.isEmpty_iff] at h1 h2 h3
      constructor
      · intro h
        cases h
      · intro hr
        rcases hr with h | h | h
        · exact absurd h h1
        · exact absurd ((tiemposPorItem_eq_nil tiempos).mpr h) h2
        · exact absurd h h3
  · intro e he
    unfold get_tiempo_estimado at he
    dsimp only at he
    split_ifs at he
    exact (Option.some.injEq .. ▸ he).symm
  · intro h
    unfold filteredRates
    rw [if_neg (by omega)]
  · intro h
    unfold filteredRates
    rw [if_pos h]

theorem c8_estimator_contract_witness :
    ((get_tiempo_estimado [⟨3, 2⟩, ⟨0, 0⟩] 10 = none ↔
      ([(⟨3, 2⟩ : Registro), ⟨0, 0⟩] = [] ∨
        (∀ r ∈ [(⟨3, 2⟩ : Registro), ⟨0, 0⟩], r.items = 0) ∨
        filteredRates (tiemposPorItem [⟨3, 2⟩, ⟨0, 0⟩]) = [])) ∧
    (∀ e, get_tiempo_estimado [⟨3, 2⟩, ⟨0, 0⟩] 10 = some e →
      e = (filteredRates (tiemposPorItem [⟨3, 2⟩, ⟨0, 0⟩])).sum /
            ((filteredRates (tiemposPorItem [⟨3, 2⟩, ⟨0, 0⟩])).length : ℚ) *
          ((10 : ℕ) : ℚ)) ∧
    ((tiemposPorItem [⟨3, 2⟩, ⟨0, 0⟩]).length ≤ 3 →
      filteredRates (tiemposPorItem [⟨3, 2⟩, ⟨0, 0⟩]) =
        tiemposPorItem [⟨3, 2⟩, ⟨0, 0⟩]) ∧
    (3 < (tiemposPorItem [⟨3, 2⟩, ⟨0, 0⟩]).length →
      filteredRates (tiemposPorItem [⟨3, 2⟩, ⟨0, 0⟩]) =
        (tiemposPorItem [⟨3, 2⟩, ⟨0, 0⟩]).filter (fun t =>
          decide (npPercentile (tiemposPorItem [⟨3, 2⟩, ⟨0, 0⟩]) 25 -
              3 / 2 * (npPercentile (tiemposPorItem [⟨3, 2⟩, ⟨0, 0⟩]) 75 -
                npPercentile (tiemposPorItem [⟨3, 2⟩, ⟨0, 0⟩]) 25) ≤ t) &&
          decide (t ≤ npPercentile (tiemposPorItem [⟨3, 2⟩, ⟨0, 0⟩]) 75 +
              3 / 2 * (npPercentile (tiemposPorItem [⟨3, 2⟩, ⟨0, 0⟩]) 75 -
                npPercentile (tiemposPorItem [⟨3, 2⟩, ⟨0, 0⟩]) 25))))) :=
  c8_estimator_contract [⟨3, 2⟩, ⟨0, 0⟩] 10

/-! ## Claim C2: the progress / yield contract -/

/-- C2, counterexample: with 50 wishlist rows empty on both fields followed
by one real row against a single catalog row, the processed-pair counter
reaches 50 — a multiple of 50 — while skipping empty rows, but the skip
paths advance the counter without ever reaching the yield check, so no tuple
with progress `50/51·100 = 5000/51` is yielded (the stream holds only the
two final tuples of progress 100). -/
theorem c2_yield_on_multiples_cex :
    ¬ ∃ y ∈ find_matches_with_progress (7/10) (7/10) false
        (List.replicate 50 (⟨[], []⟩ : RbRow) ++ [⟨['a'], ['b']⟩])
        [⟨['x'], ['y'], [], []⟩], y.1 = (5000 : ℚ) / 51 := by
  decide

/-- Modelled from claim C2 as amended: a pair is skipped when either side is
empty on both (stripped) fields; a skipped pair advances the processed-pair
counter without yielding. -/
def pairSkipped (r : RbRow) (d : DiscoRow) : Bool :=
  bothEmptyRb r || bothEmptyDisco d

/-- Modelled from claim C2 as amended: walking the N·M pairs in order, every
pair advances the counter by one; after each non-skipped pair whose counter
value is a multiple of 50 or equals N·M, a (progress, cumulative candidates)
tuple is yielded with progress = counter/(N·M)·100; skipped pairs yield
nothing. -/
def refStep (total : Nat) (a_thr t_thr : ℚ) (cruzado : Bool)
    (st : EngState) (p : RbRow × DiscoRow) : EngState :=
  let c := st.procesados + 1
  if pairSkipped p.1 p.2 then { st with procesados := c }
  else
    let newMatches := st.matchesAcc ++
      candidatesForPair a_thr t_thr cruzado (pyStrip p.1.artista)
        (pyStrip p.1.titulo) st.matchesAcc p.2
    if c % 50 == 0 || c == total then
      { matchesAcc := newMatches, procesados := c,
        yields := st.yields ++ [(((c : ℚ) / (total : ℚ)) * 100, newMatches)] }
    else
      { matchesAcc := newMatches, procesados := c, yields := st.yields }

/-- The reference run over the flattened pair sequence. -/
def refRun (a_thr t_thr : ℚ) (cruzado : Bool) (rbs : List RbRow)
    (discos : List DiscoRow) : EngState :=
  (rbs.flatMap (fun r => discos.map (fun d => (r, d)))).foldl
    (refStep (rbs.length * discos.length) a_thr t_thr cruzado) ⟨[], 0, []⟩

/-- Modelled from claim C2 as amended: the full yield stream — the in-loop
yields of the reference run followed by the unconditional final tuple with
progress exactly 100 and the complete candidate set. -/
def refStream (a_thr t_thr : ℚ) (cruzado : Bool) (rbs : List RbRow)
    (discos : List DiscoRow) : List (ℚ × List Cand) :=
  (refRun a_thr t_thr cruzado rbs discos).yields ++
    [(100, (refRun a_thr t_thr cruzado rbs discos).matchesAcc)]

theorem foldl_refStep_skipped_row (total : Nat) (a_thr t_thr : ℚ)
    (cruzado : Bool) {r : RbRow} (hr : bothEmptyRb r = true) :
    ∀ (discos : List DiscoRow) (st : EngState),
      (discos.map (fun d => (r, d))).foldl
          (refStep total a_thr t_thr cruzado) st =
        { st with procesados := st.procesados + discos.length } := by
  intro discos
  induction discos with
  | nil => intro st; cases st; rfl
  | cons d ds ih =>
    intro st
    rw [List.map_cons, List.foldl_cons]
    have hstep : refStep total a_thr t_thr cruzado st (r, d) =
        { st with procesados := st.procesados + 1 } := by
      unfold refStep
      dsimp only
      rw [if_pos (by simp [pairSkipped, hr])]
    rw [hstep, ih]
    cases st
    simp only [List.length_cons]
    congr 1
    omega

theorem refStep_eq_innerStep (total : Nat) (a_thr t_thr : ℚ) (cruzado : Bool)
    {r : RbRow} (hr : bothEmptyRb r = false) (st : EngState) (d : DiscoRow) :
    refStep total a_thr t_thr cruzado st (r, d) =
      innerStep total a_thr t_thr cruzado (pyStrip r.artista)
        (pyStrip r.titulo) st d := by
  unfold refStep innerStep
  dsimp only
  rw [show pairSkipped r d = bothEmptyDisco d by
    simp [pairSkipped, hr]]

theorem rowStep_eq_foldl_refStep (total : Nat) (a_thr t_thr : ℚ)
    (cruzado : Bool) (discos : List DiscoRow) (st : EngState) (r : RbRow) :
    rowStep total a_thr t_thr cruzado discos st r =
      (discos.map (fun d => (r, d))).foldl
        (refStep total a_thr t_thr cruzado) st := by
  by_cases hr : bothEmptyRb r = true
  · rw [foldl_refStep_skipped_row total a_thr t_thr cruzado hr discos st]
    unfold rowStep
    dsimp only
    rw [if_pos (by simpa [bothEmptyRb] using hr)]
  · rw [Bool.not_eq_true] at hr
    unfold rowStep
    dsimp only
    rw [if_neg (by simpa [bothEmptyRb] using hr)]
    rw [List.foldl_map]
    exact List.foldl_ext _ _ st
      (fun st' d _ => (refStep_eq_innerStep total a_thr t_thr cruzado hr
        st' d).symm)

theorem foldl_rowStep_eq_refRun (total : Nat) (a_thr t_thr : ℚ)
    (cruzado : Bool) (discos : List DiscoRow) :
    ∀ (rbs : List RbRow) (st : EngState),
      rbs.foldl (rowStep total a_thr t_thr cruzado discos) st =
        (rbs.flatMap (fun r => discos.map (fun d => (r, d)))).foldl
          (refStep total a_thr t_thr cruzado) st := by
  intro rbs
  induction rbs with
  | nil => intro st; rfl
  | cons r rest ih =>
    intro st
    rw [List.flatMap_cons, List.foldl_append, List.foldl_cons,
      rowStep_eq_foldl_refStep total a_thr t_thr cruzado discos st r, ih]

/-- C2, amended: for non-empty inputs the yield stream of
`find_matches_with_progress` is exactly the reference stream: every pair
advances the processed-pair counter by one; after each non-skipped pair (one
with some stripped text on both sides) whose counter is a multiple of 50 or
equals N·M, a (progress = counter/(N·M)·100, cumulative candidate set) tuple
is yielded; pairs skipped as empty — and wholly skipped wishlist rows —
advance the counter without yielding, even when the counter lands on a
multiple of 50; and after the final pair one more tuple with progress
exactly 100 is always yielded. -/
theorem c2_yield_stream (a_thr t_thr : ℚ) (cruzado : Bool)
    (rbs : List RbRow) (discos : List DiscoRow)
    (hN : rbs ≠ []) (hM : discos ≠ []) :
    find_matches_with_progress a_thr t_thr cruzado rbs discos =
      refStream a_thr t_thr cruzado rbs discos := by
  unfold find_matches_with_progress refStream refRun engineRun
  rw [if_neg (by simp [hN, hM])]
  rw [foldl_rowStep_eq_refRun (rbs.length * discos.length) a_thr t_thr
    cruzado discos rbs ⟨[], 0, []⟩]

theorem c2_yield_stream_witness :
    ([(⟨['a'], ['b']⟩ : RbRow)] ≠ []) ∧
    ([(⟨['a'], ['b'], [], []⟩ : DiscoRow)] ≠ []) ∧
    find_matches_with_progress (7/10) (7/10) false [⟨['a'], ['b']⟩]
        [⟨['a'], ['b'], [], []⟩] =
      refStream (7/10) (7/10) false [⟨['a'], ['b']⟩]
        [⟨['a'], ['b'], [], []⟩] :=
  ⟨by decide, by decide,
    c2_yield_stream (7/10) (7/10) false [⟨['a'], ['b']⟩]
      [⟨['a'], ['b'], [], []⟩] (by decide) (by decide)⟩
